import Mathlib

/- A verification development of the redback transient light-curve fitting
   library: the shipped prior configuration files, the upper-limit Gaussian
   likelihood, the model-function output conventions, and the transient data
   containers.  Prior files are embedded line by line from the repository;
   in latex label strings the escapes \x7b and \x7d stand for the literal
   brace characters of the source text. -/

namespace Redback

/- ## Prior configuration files

   Each line of a `.prior` file is either `key = Dist(minimum, maximum, name,
   latex_label=...)` for a bounded, labelled distribution (Uniform, LogUniform,
   Sine), or `key = number` for a fixed numeric constant.  The embedding below
   records each line of the four shipped files verbatim: the assignment key,
   the distribution kind, its minimum and maximum bounds, the name string
   recorded inside the distribution call, and the latex label text. -/

inductive DistKind
  | uniform
  | logUniform
  | sine
  deriving DecidableEq

structure PriorDist where
  kind : DistKind
  minimum : ℝ
  maximum : ℝ
  name : String
  latex : String

inductive PriorRHS
  | dist (d : PriorDist)
  | const (v : ℝ)

abbrev PriorFile := List (String × PriorRHS)

/-- Lines of `redback/priors/csm_shock_breakout.prior`, first variant. -/
def csm_shock_breakout_a : PriorFile :=
  [ ("redshift", .dist ⟨.uniform, 0.01, 1, "redshift", "$z$"⟩),
    ("csm_mass", .dist ⟨.logUniform, 1e-3, 2, "csm_mass",
      "$M_\x7b\\mathrm\x7bCSM\x7d\x7d~(M_\x7b\\odot\x7d)$"⟩),
    ("v_min", .dist ⟨.logUniform, 1e3, 3e4, "vej",
      "$v_\x7b\\mathrm\x7bej\x7d\x7d~(\\mathrm\x7bkm\x7d/\\mathrm\x7bs\x7d)$"⟩),
    ("beta", .dist ⟨.uniform, 0.4, 0.5, "beta", "$\\\\beta$"⟩),
    ("kappa", .dist ⟨.uniform, 0.01, 1, "kappa",
      "$\\\\kappa~(\\mathrm\x7bcm\x7d^\x7b2\x7d/\\mathrm\x7bg\x7d)$"⟩),
    ("shell_radius", .dist ⟨.uniform, 1e-2, 10, "shell_radius",
      "$R_\x7b\\mathrm\x7bshell\x7d\x7d~(10^\x7b14\x7d~\\mathrm\x7bcm\x7d)$"⟩),
    ("shell_width_ratio", .dist ⟨.uniform, 0.1, 0.5, "shell_width_ratio",
      "$\\\\Delta~R_\x7b\\mathrm\x7bshell\x7d\x7d/R_\x7b\\mathrm\x7bshell\x7d\x7d$"⟩) ]

/-- Lines of `redback/priors/csm_shock_breakout.prior`, second variant. -/
def csm_shock_breakout_b : PriorFile :=
  [ ("redshift", .dist ⟨.uniform, 0.01, 1, "redshift", "$z$"⟩),
    ("csm_mass", .dist ⟨.logUniform, 1e-3, 10, "csm_mass",
      "$M_\x7b\\mathrm\x7bCSM\x7d\x7d~(M_\x7b\\odot\x7d)$"⟩),
    ("v_min", .dist ⟨.logUniform, 1e3, 1e5, "vej",
      "$v_\x7b\\mathrm\x7bej\x7d\x7d~(\\mathrm\x7bkm\x7d/\\mathrm\x7bs\x7d)$"⟩),
    ("beta", .dist ⟨.uniform, 0.1, 0.5, "beta", "$\\\\beta$"⟩),
    ("kappa", .dist ⟨.uniform, 0.05, 2, "kappa",
      "$\\\\kappa~(\\mathrm\x7bcm\x7d^\x7b2\x7d/\\mathrm\x7bg\x7d)$"⟩),
    ("shell_radius", .dist ⟨.uniform, 1e-2, 1e2, "shell_radius",
      "$R_\x7b\\mathrm\x7bshell\x7d\x7d~(10^\x7b14\x7d~\\mathrm\x7bcm\x7d)$"⟩),
    ("shell_width_ratio", .dist ⟨.uniform, 0.1, 0.9, "shell_width_ratio",
      "$\\\\Delta~R_\x7b\\mathrm\x7bshell\x7d\x7d/R_\x7b\\mathrm\x7bshell\x7d\x7d$"⟩) ]

/-- Lines of `redback/priors/stream_stream_tde.prior`. -/
def stream_stream_tde : PriorFile :=
  [ ("redshift", .dist ⟨.uniform, 1e-6, 3, "redshift", "$z$"⟩),
    ("peak_time", .dist ⟨.logUniform, 0.1, 60, "peak_time",
      "$t_\x7b\\mathrm\x7bpeak\x7d\x7d~(\\mathrm\x7bday\x7d)$"⟩),
    ("sigma_t", .dist ⟨.logUniform, 10, 60, "sigma_t",
      "$\\\\sigma~(\\mathrm\x7bday\x7d)$"⟩),
    ("mbh_6", .dist ⟨.logUniform, 0.01, 20, "mbh_6",
      "$M_\x7b\\mathrm\x7bBH\x7d\x7d~(10^\x7b6\x7d~M_\\odot)$"⟩),
    ("mstar", .dist ⟨.logUniform, 0.1, 10, "stellar_mass",
      "$M_\x7b\\mathrm\x7bstar\x7d\x7d~(M_\\odot)$"⟩),
    ("c1", .const 1.0),
    ("del_omega", .const 2.0),
    ("f", .const 0.2),
    ("h_r", .const 0.2),
    ("inc_tcool", .const 1) ]

/-- Lines of `redback/priors/gaussianrise_cooling_envelope.prior`.  The keys
`beta`, `eta`, `alpha` and `mbh_6` are each assigned twice: first a
distribution (or, for `mbh_6`, a distribution near the top), then a fixed
constant near the bottom of the file. -/
def gaussianrise_cooling_envelope : PriorFile :=
  [ ("redshift", .dist ⟨.uniform, 1e-6, 3, "redshift", "$z$"⟩),
    ("peak_time", .dist ⟨.logUniform, 0.1, 60, "peak_time",
      "$t_\x7b\\mathrm\x7bpeak\x7d\x7d~(\\mathrm\x7bday\x7d)$"⟩),
    ("sigma_t", .dist ⟨.logUniform, 10, 60, "sigma_t",
      "$\\\\sigma~(\\mathrm\x7bday\x7d)$"⟩),
    ("mbh_6", .dist ⟨.logUniform, 0.01, 20, "mbh_6",
      "$M_\x7b\\mathrm\x7bBH\x7d\x7d~(10^\x7b6\x7d~M_\\odot)$"⟩),
    ("stellar_mass", .dist ⟨.logUniform, 0.1, 10, "stellar_mass",
      "$M_\x7b\\mathrm\x7bstar\x7d\x7d~(M_\\odot)$"⟩),
    ("eta", .dist ⟨.logUniform, 1e-4, 0.1, "eta", "$\\\\eta$"⟩),
    ("alpha", .dist ⟨.logUniform, 0.1, 1, "alpha", "$\\\\alpha$"⟩),
    ("beta", .dist ⟨.uniform, 1, 5, "beta", "$\\\\beta$"⟩),
    ("beta", .const 0.9),
    ("eta", .const 0.1),
    ("alpha", .const 0.1),
    ("mbh_6", .const 1) ]

/-- Lines of `redback/priors/non_default_priors/fitted_exp_decay.prior`.  The
`incl` line writes `Sine(name=incl, maximum=np.pi/2, latex_label=...)`; the minimum bound
0 is the default minimum of the Sine prior class (whose implementation lives
outside this repository). -/
noncomputable def fitted_exp_decay : PriorFile :=
  [ ("redshift", .dist ⟨.uniform, 1e-6, 3, "redshift", "$z$"⟩),
    ("log_mh", .dist ⟨.uniform, 0, 10, "log_mh",
      "$\\log_\x7b10\x7d~M_\x7b\\mathrm\x7bBH\x7d\x7d~(M_\\odot)$"⟩),
    ("a_mh", .dist ⟨.uniform, -1, 1, "a_mh", "$a_\x7b\\mathrm\x7bBH\x7d\x7d$"⟩),
    ("m_disc", .dist ⟨.logUniform, 1e-3, 10, "m_disc",
      "$M_\x7b\\mathrm\x7bstar\x7d\x7d~(M_\\odot)$"⟩),
    ("r0", .dist ⟨.uniform, 10, 100, "r0", "$r_0~(r_g)$"⟩),
    ("tvi", .dist ⟨.logUniform, 1, 1000, "tvi",
      "$t_\x7b\\mathrm\x7bvi\x7d\x7d~(\\mathrm\x7bday\x7d)$"⟩),
    ("t_form", .dist ⟨.uniform, -100, 365, "t_form",
      "$t_\x7b\\mathrm\x7bform\x7d\x7d~(\\mathrm\x7bday\x7d)$"⟩),
    ("incl", .dist ⟨.sine, 0, Real.pi / 2, "incl",
      "$\\\\theta_\x7b\\mathrm\x7bobserver\x7d\x7d~(\\mathrm\x7brad\x7d)$"⟩),
    ("log_L", .dist ⟨.uniform, 40, 48, "log_L",
      "$\\log_\x7b10\x7d~L_\x7b\\mathrm\x7bpeak\x7d\x7d~(\\mathrm\x7berg s\x7d^\x7b-1\x7d)$"⟩),
    ("t_decay", .dist ⟨.logUniform, 1, 1000, "t_decay",
      "$t_\x7b\\mathrm\x7bdecay\x7d\x7d~(\\mathrm\x7bday\x7d)$"⟩),
    ("log_T", .dist ⟨.uniform, 3.5, 5.5, "log_T",
      "$\\log_\x7b10\x7d~T_\x7b\\mathrm\x7bpeak\x7d\x7d~(\\mathrm\x7bK\x7d)$"⟩),
    ("sigma_t", .dist ⟨.logUniform, 1, 1000, "sigma_t",
      "$\\sigma_t~(\\mathrm\x7bday\x7d)$"⟩),
    ("t_peak", .dist ⟨.uniform, -100, 100, "t_peak",
      "$t_\x7b\\mathrm\x7bpeak\x7d\x7d~(\\mathrm\x7bday\x7d)$"⟩) ]

/-- All entries of all shipped `.prior` files under `redback/priors/`. -/
noncomputable def allPriorEntries : PriorFile :=
  csm_shock_breakout_a ++ csm_shock_breakout_b ++ stream_stream_tde ++
    gaussianrise_cooling_envelope ++ fitted_exp_decay

/-- Well-formed bounds for one prior right-hand side: a distribution has its
minimum strictly below its maximum, and a LogUniform distribution has a
strictly positive minimum.  A fixed constant imposes no bound condition. -/
def rhsBoundsOK : PriorRHS → Prop
  | .dist d => d.minimum < d.maximum ∧ (d.kind = DistKind.logUniform → 0 < d.minimum)
  | .const _ => True

/- ## Parsing a prior file into a prior object -/

/-- Modelled from the spec: the prior-file parser (`redback.priors` resp.
`bilby.core.prior.PriorDict.from_file`, whose implementation is not shipped
under `src/`) reads a `.prior` file line by line and stores each `key = value`
assignment into a dictionary, a later assignment to the same key overwriting
the earlier one.  The dictionary is modelled as a lookup function; this is one
update step. -/
def updADict (m : String → Option PriorRHS) (kv : String × PriorRHS) :
    String → Option PriorRHS :=
  fun k => if kv.1 = k then some kv.2 else m k

/-- Modelled from the spec: parsing a whole `.prior` file is the left fold of
the per-line dictionary update over the lines of the file, starting from the
empty dictionary. -/
def parsePriorFile (lines : PriorFile) : String → Option PriorRHS :=
  lines.foldl updADict fun _ => none

/-- Value of the last assignment to key `k` in a file, scanning the lines left
to right and keeping the most recent match.  This is the reading of the claim:
the binding a parameter receives is the value of its last assignment. -/
def lastAssign (lines : PriorFile) (k : String) : Option PriorRHS :=
  lines.foldl (fun acc kv => if kv.1 = k then some kv.2 else acc) none

/- ## The Gaussian likelihood with upper limits

   Modelled from the spec: the class `redback.likelihoods.
   GaussianLikelihoodWithUpperLimits` (implementation not shipped under
   `src/`) is described in `examples/handling_non_detections.ipynb`: the data
   hold all detections and non-detections together with a flag array marking
   which points are upper limits (flag 1 for a detection, 0 for a
   non-detection); for a detection the contribution is the Gaussian density of
   the standardised residual, and for a non-detection, whose `y` value holds
   the limiting flux, the contribution is the Gaussian CDF evaluated at
   (limit - model) / (limit / upper_limit_sigma). -/

structure DataPoint where
  x : ℝ
  y : ℝ
  sigma : ℝ
  flag : ℝ

/-- Gaussian density of the standardised residual `z = (y - model) / sigma`,
with the 1/sigma normalisation of a Gaussian measurement density. -/
noncomputable def gaussDensity (z sigma : ℝ) : ℝ :=
  Real.exp (-(z ^ 2) / 2) / (Real.sqrt (2 * Real.pi) * sigma)

/-- Contribution of a single data point to the likelihood, selected by the
detection flag.  `cdf` is the standard normal CDF (supplied by scipy in the
code, kept abstract here). -/
noncomputable def pointContribUL (cdf : ℝ → ℝ) (upper_limit_sigma : ℝ)
    (modelVal y sigma flag : ℝ) : ℝ :=
  if flag = 1 then gaussDensity ((y - modelVal) / sigma) sigma
  else cdf ((y - modelVal) / (y / upper_limit_sigma))

/-- Total likelihood: a single left-to-right pass accumulating the product of
the per-point contributions. -/
noncomputable def likelihoodUL (cdf : ℝ → ℝ) (upper_limit_sigma : ℝ)
    (model : ℝ → ℝ) (pts : List DataPoint) : ℝ :=
  pts.foldl
    (fun acc p => acc * pointContribUL cdf upper_limit_sigma (model p.x) p.y p.sigma p.flag) 1

/- ## Model functions and output formats -/

abbrev Params := String → ℝ

inductive OutputFormat
  | flux_density
  | magnitude
  | flux
  | luminosity
  deriving DecidableEq

inductive PhysUnit
  | mJy
  | abMag
  | ergPerSPerCm2
  | ergPerS
  | ergPerS1e50
  deriving DecidableEq

/-- Modelled from the spec: a redback model function (implementations not
shipped under `src/`) evaluates pointwise over the time array given a
parameter dictionary (`docs/models.txt`: users "pass into the function a time
array and any other parameter required by the function").  `lumScaled` records
the documented convention that luminosity "is always in erg/s with some models
returning the output in 1e50 erg/s (for numerical stability)". -/
structure ModelFunction where
  pointEval : OutputFormat → ℝ → Params → ℝ
  lumScaled : Bool

/-- Physical unit of the output array per `docs/models.txt`: flux_density in
mJy, magnitude in AB mag, flux in erg/s/cm^2, luminosity in erg/s, except that
a `lumScaled` model returns luminosity in units of 1e50 erg/s. -/
def unitOf (m : ModelFunction) (f : OutputFormat) : PhysUnit :=
  match f with
  | .flux_density => .mJy
  | .magnitude => .abMag
  | .flux => .ergPerSPerCm2
  | .luminosity => if m.lumScaled then .ergPerS1e50 else .ergPerS

/-- Applying a model function to a time array: map the pointwise evaluation
over the times. -/
def evalModel (m : ModelFunction) (f : OutputFormat) (t : List ℝ) (p : Params) : List ℝ :=
  t.map fun x => m.pointEval f x p

/-- Unit table asserted by the claim under examination: flux_density in mJy,
magnitude in AB mag, flux in erg/s/cm^2 and luminosity in erg/s, with no
exception.  Stated from the words of the claim, to be compared with `unitOf`
from the documentation. -/
def specClaimedUnit : OutputFormat → PhysUnit
  | .flux_density => .mJy
  | .magnitude => .abMag
  | .flux => .ergPerSPerCm2
  | .luminosity => .ergPerS

/-- Stand-in for one of the models that, per `docs/models.txt`, return
luminosity in units of 1e50 erg/s for numerical stability. -/
def scaledLuminosityModel : ModelFunction :=
  ⟨fun _ _ _ => 0, true⟩

/- ## Transient data containers -/

/-- Modelled from the spec: a transient object holds observational arrays
(time, measured values, uncertainties, per-point band labels) and the optional
`active_bands` selection; `none` means no `active_bands` argument was supplied
(`docs/transients.txt`: "All bands/frequencies are active by default"). -/
structure TransientData where
  time : List ℝ
  y : List ℝ
  yerr : List ℝ
  bands : List String
  activeBands : Option (List String)

/-- Equal-length invariant of the observational arrays. -/
def TransientData.equalLen (t : TransientData) : Prop :=
  t.y.length = t.time.length ∧ t.yerr.length = t.time.length ∧
    t.bands.length = t.time.length

/-- Boolean masking of a parallel array, as numpy fancy indexing `xs[mask]`. -/
def maskList {α : Type} : List Bool → List α → List α
  | true :: mb, x :: xs => x :: maskList mb xs
  | false :: mb, _ :: xs => maskList mb xs
  | _, _ => []

/-- Modelled from the spec: constructing a transient object from arrays
selected by a common detection mask, as in the example notebook
(`Supernova(time=time[mask], flux=flux[mask], flux_err=flux_err[mask],
bands=bands[mask], data_mode=flux)`); no `active_bands` argument is supplied,
so the field defaults to `none`. -/
def mkTransientMasked (mask : List Bool) (time flux fluxerr : List ℝ)
    (bands : List String) : TransientData :=
  ⟨maskList mask time, maskList mask flux, maskList mask fluxerr,
    maskList mask bands, none⟩

/-- Whether a band is active on a transient: with no `active_bands` supplied
every band is active, otherwise exactly the listed bands are. -/
def TransientData.isActive (t : TransientData) (b : String) : Bool :=
  match t.activeBands with
  | none => true
  | some a => a.contains b

/-- Per-point activity mask of a transient. -/
def TransientData.bandMask (t : TransientData) : List Bool :=
  t.bands.map t.isActive

/-- Modelled from the spec: the data actually used in fitting, the points
whose band is active (`docs/transients.txt`: `active_bands` "sets the rest of
the data to be inactive, i.e., not used in the fitting"). -/
def TransientData.fittingData (t : TransientData) : TransientData :=
  ⟨maskList t.bandMask t.time, maskList t.bandMask t.y, maskList t.bandMask t.yerr,
    maskList t.bandMask t.bands, t.activeBands⟩

/-- Modelled from the spec: supplying an `active_bands` selection on a
transient object. -/
def TransientData.setActiveBands (t : TransientData) (a : List String) : TransientData :=
  ⟨t.time, t.y, t.yerr, t.bands, some a⟩

/-- Modelled from the spec: a pointwise conversion of the measured values and
their uncertainties (for example integrated flux to luminosity), leaving times
and band labels in place. -/
def TransientData.convertValues (t : TransientData) (f g : ℝ → ℝ) : TransientData :=
  ⟨t.time, t.y.map f, t.yerr.map g, t.bands, t.activeBands⟩

/- ## Theorems: the shipped prior files -/

/-- C9: in every shipped .prior configuration file, every distribution
specification has its minimum bound strictly less than its maximum bound, and
every LogUniform distribution has a strictly positive minimum bound. -/
theorem prior_bounds_wellformed : ∀ e ∈ allPriorEntries, rhsBoundsOK e.2 := by
  intro e he
  simp only [allPriorEntries, csm_shock_breakout_a, csm_shock_breakout_b,
    stream_stream_tde, gaussianrise_cooling_envelope, fitted_exp_decay,
    List.cons_append, List.nil_append, List.mem_cons, List.not_mem_nil,
    or_false] at he
  rcases he with rfl | rfl | rfl | rfl | rfl | rfl | rfl | rfl | rfl | rfl | rfl | rfl | rfl | rfl | rfl | rfl | rfl | rfl | rfl | rfl | rfl | rfl | rfl | rfl | rfl | rfl | rfl | rfl | rfl | rfl | rfl | rfl | rfl | rfl | rfl | rfl | rfl | rfl | rfl | rfl | rfl | rfl | rfl | rfl | rfl | rfl | rfl | rfl | rfl <;>
    first
      | trivial
      | exact ⟨by first | positivity | norm_num,
          fun h => by first | exact absurd h (by decide) | norm_num⟩

/-- Witness for C9 at the first entry of csm_shock_breakout.prior. -/
theorem prior_bounds_wellformed_witness :
    (("redshift", PriorRHS.dist ⟨DistKind.uniform, 0.01, 1, "redshift", "$z$"⟩) ∈
        allPriorEntries) ∧
      rhsBoundsOK (PriorRHS.dist ⟨DistKind.uniform, 0.01, 1, "redshift", "$z$"⟩) := by
  have hm : ("redshift", PriorRHS.dist ⟨DistKind.uniform, 0.01, 1, "redshift", "$z$"⟩) ∈
      allPriorEntries := by
    simp [allPriorEntries, csm_shock_breakout_a]
  exact ⟨hm, prior_bounds_wellformed _ hm⟩

/-- C3 counterexample: the entry c1 of stream_stream_tde.prior maps the
parameter name to the fixed numeric constant 1.0, which is not a distribution
specification of any kind. -/
theorem prior_constant_entry_counterexample :
    (("c1", PriorRHS.const 1.0) ∈ allPriorEntries) ∧
      ∀ d : PriorDist, PriorRHS.const 1.0 ≠ PriorRHS.dist d := by
  refine ⟨by simp [allPriorEntries, stream_stream_tde], ?_⟩
  intro d h
  exact PriorRHS.noConfusion h

/-- C3 amended: every entry of the shipped .prior files maps a parameter name
either to a bounded, labelled distribution specification (with a nonempty
latex label) or to a fixed numeric constant. -/
theorem prior_entries_dist_or_const :
    ∀ e ∈ allPriorEntries,
      (∃ d : PriorDist, e.2 = PriorRHS.dist d ∧ d.latex ≠ "") ∨
        ∃ v : ℝ, e.2 = PriorRHS.const v := by
  intro e he
  simp only [allPriorEntries, csm_shock_breakout_a, csm_shock_breakout_b,
    stream_stream_tde, gaussianrise_cooling_envelope, fitted_exp_decay,
    List.cons_append, List.nil_append, List.mem_cons, List.not_mem_nil,
    or_false] at he
  rcases he with rfl | rfl | rfl | rfl | rfl | rfl | rfl | rfl | rfl | rfl | rfl | rfl | rfl | rfl | rfl | rfl | rfl | rfl | rfl | rfl | rfl | rfl | rfl | rfl | rfl | rfl | rfl | rfl | rfl | rfl | rfl | rfl | rfl | rfl | rfl | rfl | rfl | rfl | rfl | rfl | rfl | rfl | rfl | rfl | rfl | rfl | rfl | rfl | rfl <;>
    first
      | exact Or.inl ⟨_, rfl, by decide⟩
      | exact Or.inr ⟨_, rfl⟩

/-- Witness for the amended C3 at the entry del_omega of
stream_stream_tde.prior. -/
theorem prior_entries_dist_or_const_witness :
    (("del_omega", PriorRHS.const 2.0) ∈ allPriorEntries) ∧
      ((∃ d : PriorDist, PriorRHS.const (2.0 : ℝ) = PriorRHS.dist d ∧ d.latex ≠ "") ∨
        ∃ v : ℝ, PriorRHS.const (2.0 : ℝ) = PriorRHS.const v) := by
  have hm : ("del_omega", PriorRHS.const 2.0) ∈ allPriorEntries := by
    simp [allPriorEntries, stream_stream_tde]
  exact ⟨hm, prior_entries_dist_or_const _ hm⟩

/-- C4 counterexample: the v_min entry of csm_shock_breakout.prior records the
name vej inside its distribution specification, which differs from the mapping
key v_min. -/
theorem prior_name_mismatch_counterexample :
    (("v_min", PriorRHS.dist ⟨DistKind.logUniform, 1e3, 3e4, "vej",
        "$v_\x7b\\mathrm\x7bej\x7d\x7d~(\\mathrm\x7bkm\x7d/\\mathrm\x7bs\x7d)$"⟩) ∈ allPriorEntries) ∧
      PriorDist.name ⟨DistKind.logUniform, 1e3, 3e4, "vej", "$v_\x7b\\mathrm\x7bej\x7d\x7d~(\\mathrm\x7bkm\x7d/\\mathrm\x7bs\x7d)$"⟩ ≠ "v_min" := by
  refine ⟨by simp [allPriorEntries, csm_shock_breakout_a], by decide⟩

/-- C4 amended: for every distribution entry of the shipped .prior files the
mapping key equals the name recorded inside the distribution specification,
except the v_min entries (recorded name vej, in both variants of
csm_shock_breakout.prior) and the mstar entry (recorded name stellar_mass, in
stream_stream_tde.prior). -/
theorem prior_key_matches_name_except_aliases :
    ∀ e ∈ allPriorEntries, ∀ d : PriorDist, e.2 = PriorRHS.dist d →
      d.name = e.1 ∨ (e.1 = "v_min" ∧ d.name = "vej") ∨
        (e.1 = "mstar" ∧ d.name = "stellar_mass") := by
  intro e he
  simp only [allPriorEntries, csm_shock_breakout_a, csm_shock_breakout_b,
    stream_stream_tde, gaussianrise_cooling_envelope, fitted_exp_decay,
    List.cons_append, List.nil_append, List.mem_cons, List.not_mem_nil,
    or_false] at he
  rcases he with rfl | rfl | rfl | rfl | rfl | rfl | rfl | rfl | rfl | rfl | rfl | rfl | rfl | rfl | rfl | rfl | rfl | rfl | rfl | rfl | rfl | rfl | rfl | rfl | rfl | rfl | rfl | rfl | rfl | rfl | rfl | rfl | rfl | rfl | rfl | rfl | rfl | rfl | rfl | rfl | rfl | rfl | rfl | rfl | rfl | rfl | rfl | rfl | rfl <;>
    · intro d hd
      first
        | exact PriorRHS.noConfusion hd
        | (injection hd with h; subst h; decide)

/-- Witness for the amended C4 at the peak_time entry of
stream_stream_tde.prior. -/
theorem prior_key_matches_name_except_aliases_witness :
    (("peak_time", PriorRHS.dist ⟨DistKind.logUniform, 0.1, 60, "peak_time",
        "$t_\x7b\\mathrm\x7bpeak\x7d\x7d~(\\mathrm\x7bday\x7d)$"⟩) ∈ allPriorEntries) ∧
      (PriorDist.name ⟨DistKind.logUniform, 0.1, 60, "peak_time", "$t_\x7b\\mathrm\x7bpeak\x7d\x7d~(\\mathrm\x7bday\x7d)$"⟩ = "peak_time" ∨
        ("peak_time" = "v_min" ∧
          PriorDist.name ⟨DistKind.logUniform, 0.1, 60, "peak_time", "$t_\x7b\\mathrm\x7bpeak\x7d\x7d~(\\mathrm\x7bday\x7d)$"⟩ = "vej") ∨
        ("peak_time" = "mstar" ∧
          PriorDist.name ⟨DistKind.logUniform, 0.1, 60, "peak_time", "$t_\x7b\\mathrm\x7bpeak\x7d\x7d~(\\mathrm\x7bday\x7d)$"⟩ =
            "stellar_mass")) := by
  have hm : ("peak_time", PriorRHS.dist ⟨DistKind.logUniform, 0.1, 60, "peak_time",
      "$t_\x7b\\mathrm\x7bpeak\x7d\x7d~(\\mathrm\x7bday\x7d)$"⟩) ∈ allPriorEntries := by
    simp [allPriorEntries, stream_stream_tde]
  exact ⟨hm, prior_key_matches_name_except_aliases _ hm _ rfl⟩


/- ## Theorems: parsing a prior file -/

/-- Left fold of dictionary updates, applied at a key, equals the left fold
keeping the most recent assignment to that key. -/
theorem foldl_updADict_apply (lines : PriorFile) :
    ∀ (m : String → Option PriorRHS) (k : String),
      lines.foldl updADict m k =
        lines.foldl (fun acc kv => if kv.1 = k then some kv.2 else acc) (m k) := by
  induction lines with
  | nil => intro m k; rfl
  | cons kv rest ih =>
      intro m k
      simp only [List.foldl_cons]
      rw [ih]
      rfl

/-- C6: parsing a .prior file binds every parameter to the value of its last
assignment in the file; in particular, in gaussianrise_cooling_envelope.prior
the keys beta, eta, alpha and mbh_6, first assigned distributions, end up
bound to the fixed constants assigned at the bottom of the file. -/
theorem prior_parse_last_assignment_wins :
    (∀ (lines : PriorFile) (k : String), parsePriorFile lines k = lastAssign lines k) ∧
      parsePriorFile gaussianrise_cooling_envelope "beta" = some (PriorRHS.const 0.9) ∧
      parsePriorFile gaussianrise_cooling_envelope "eta" = some (PriorRHS.const 0.1) ∧
      parsePriorFile gaussianrise_cooling_envelope "alpha" = some (PriorRHS.const 0.1) ∧
      parsePriorFile gaussianrise_cooling_envelope "mbh_6" = some (PriorRHS.const 1) := by
  refine ⟨fun lines k => foldl_updADict_apply lines (fun _ => none) k, rfl, rfl, rfl, rfl⟩

/- ## Theorems: the upper-limit likelihood -/

/-- C1: the likelihood with upper limits is a single pass over the data whose
value is the product of independent per-point closed-form contributions; a
point flagged 1 (detected) contributes the Gaussian density of the
standardised residual (y - model) / sigma, and a point flagged 0
(non-detected, with y holding the limiting flux) contributes the Gaussian CDF
evaluated at (limit - model) / (limit / upper_limit_sigma).  No iteration,
retry, or failure handling occurs: the value is this closed form. -/
theorem upper_limit_likelihood_closed_form :
    (∀ (cdf : ℝ → ℝ) (uls : ℝ) (model : ℝ → ℝ) (pts : List DataPoint),
        likelihoodUL cdf uls model pts =
          (pts.map fun p =>
            pointContribUL cdf uls (model p.x) p.y p.sigma p.flag).prod) ∧
    (∀ (cdf : ℝ → ℝ) (uls mv y s : ℝ),
        pointContribUL cdf uls mv y s 1 = gaussDensity ((y - mv) / s) s) ∧
    (∀ (cdf : ℝ → ℝ) (uls mv y s : ℝ),
        pointContribUL cdf uls mv y s 0 = cdf ((y - mv) / (y / uls))) := by
  refine ⟨fun cdf uls model pts => ?_, fun cdf uls mv y s => ?_, fun cdf uls mv y s => ?_⟩
  · rw [List.prod_eq_foldl, List.foldl_map]
    rfl
  · simp [pointContribUL]
  · norm_num [pointContribUL]

/- ## Theorems: model functions and output formats -/

/-- C2 counterexample: per the documentation, some models return luminosity in
units of 1e50 erg/s, so the output unit for the luminosity format is not
fixed at erg/s for every model function. -/
theorem model_output_unit_counterexample :
    unitOf scaledLuminosityModel OutputFormat.luminosity ≠
      specClaimedUnit OutputFormat.luminosity := by
  decide

/-- C2 amended: applying a model function to a time array returns an array of
the same length, in the fixed unit of the requested format (flux_density in
mJy, magnitude in AB mag, flux in erg/s/cm^2, luminosity in erg/s), except
that some models return luminosity in units of 1e50 erg/s for numerical
stability. -/
theorem model_output_length_and_units :
    ∀ (m : ModelFunction) (f : OutputFormat) (t : List ℝ) (p : Params),
      (evalModel m f t p).length = t.length ∧
        (unitOf m f = specClaimedUnit f ∨
          (f = OutputFormat.luminosity ∧ unitOf m f = PhysUnit.ergPerS1e50)) := by
  intro m f t p
  refine ⟨by simp [evalModel], ?_⟩
  cases f with
  | flux_density => exact Or.inl rfl
  | magnitude => exact Or.inl rfl
  | flux => exact Or.inl rfl
  | luminosity =>
      cases hm : m.lumScaled with
      | false => exact Or.inl (by simp [unitOf, hm, specClaimedUnit])
      | true => exact Or.inr ⟨rfl, by simp [unitOf, hm]⟩

/- ## Theorems: transient data containers -/

/-- Length of a masked array: with arrays as long as the mask, masking keeps
exactly the true positions. -/
theorem maskList_length {α : Type} :
    ∀ (mask : List Bool) (xs : List α), xs.length = mask.length →
      (maskList mask xs).length = mask.count true := by
  intro mask
  induction mask with
  | nil =>
      intro xs h
      cases xs with
      | nil => rfl
      | cons x xs' => simp at h
  | cons b mb ih =>
      intro xs h
      cases xs with
      | nil => simp at h
      | cons x xs' =>
          have h' : xs'.length = mb.length := by simpa using h
          cases b with
          | false => simpa [maskList, List.count_cons] using ih xs' h'
          | true => simpa [maskList, List.count_cons] using ih xs' h'

/-- Masking with an all-true mask of matching length returns the array. -/
theorem maskList_all_true {α : Type} :
    ∀ (mask : List Bool) (xs : List α), (∀ c ∈ mask, c = true) →
      xs.length = mask.length → maskList mask xs = xs := by
  intro mask
  induction mask with
  | nil =>
      intro xs _ h
      cases xs with
      | nil => rfl
      | cons x xs' => simp at h
  | cons b mb ih =>
      intro xs hall h
      cases xs with
      | nil => simp at h
      | cons x xs' =>
          have hb : b = true := hall b (by simp)
          subst hb
          have h' : xs'.length = mb.length := by simpa using h
          simp only [maskList]
          rw [ih xs' (fun c hc => hall c (by simp [hc])) h']

/-- C5: transient objects hold observational arrays of equal length, and the
operations on them (construction from mask-selected arrays, selection of the
active-band fitting data, pointwise value conversion) preserve the
equal-length invariant. -/
theorem transient_equal_length_invariant :
    (∀ (mask : List Bool) (time flux fluxerr : List ℝ) (bands : List String),
        time.length = mask.length → flux.length = mask.length →
        fluxerr.length = mask.length → bands.length = mask.length →
        (mkTransientMasked mask time flux fluxerr bands).equalLen) ∧
    (∀ t : TransientData, t.equalLen → t.fittingData.equalLen) ∧
    (∀ (t : TransientData) (f g : ℝ → ℝ), t.equalLen →
        (t.convertValues f g).equalLen) := by
  refine ⟨?_, ?_, ?_⟩
  · intro mask time flux fluxerr bands h1 h2 h3 h4
    simp only [mkTransientMasked, TransientData.equalLen]
    exact ⟨by rw [maskList_length mask flux h2, maskList_length mask time h1],
      by rw [maskList_length mask fluxerr h3, maskList_length mask time h1],
      by rw [maskList_length mask bands h4, maskList_length mask time h1]⟩
  · rintro t ⟨h1, h2, h3⟩
    have hb : t.bandMask.length = t.bands.length := by
      simp [TransientData.bandMask]
    have htime : t.time.length = t.bandMask.length := (hb.trans h3).symm
    simp only [TransientData.fittingData, TransientData.equalLen]
    exact ⟨by rw [maskList_length t.bandMask t.y (h1.trans htime),
        maskList_length t.bandMask t.time htime],
      by rw [maskList_length t.bandMask t.yerr (h2.trans htime),
        maskList_length t.bandMask t.time htime],
      by rw [maskList_length t.bandMask t.bands hb.symm,
        maskList_length t.bandMask t.time htime]⟩
  · rintro t f g ⟨h1, h2, h3⟩
    simp only [TransientData.convertValues, TransientData.equalLen, List.length_map]
    exact ⟨h1, h2, h3⟩

/-- Witness for C5 on a concrete two-point transient with a one-point mask
selection. -/
theorem transient_equal_length_invariant_witness :
    (([(1 : ℝ), 2].length = [true, false].length) ∧
      ([(3 : ℝ), 4].length = [true, false].length) ∧
      ([(5 : ℝ), 6].length = [true, false].length) ∧
      (["g", "r"].length = [true, false].length)) ∧
      (mkTransientMasked [true, false] [1, 2] [3, 4] [5, 6] ["g", "r"]).equalLen := by
  exact ⟨⟨rfl, rfl, rfl, rfl⟩,
    transient_equal_length_invariant.1 _ _ _ _ _ rfl rfl rfl rfl⟩

/-- C10: a transient constructed without an active_bands argument has all
bands active; on a transient with all bands active the fitting data are the
stored data unchanged; and supplying active_bands changes only the
active-band selection, leaving the stored observational arrays unchanged. -/
theorem active_bands_default_and_frame :
    (∀ (mask : List Bool) (time flux fluxerr : List ℝ) (bands : List String)
        (b : String),
        (mkTransientMasked mask time flux fluxerr bands).activeBands = none ∧
        (mkTransientMasked mask time flux fluxerr bands).isActive b = true) ∧
    (∀ t : TransientData, t.activeBands = none → t.equalLen → t.fittingData = t) ∧
    (∀ (t : TransientData) (a : List String),
        (t.setActiveBands a).time = t.time ∧ (t.setActiveBands a).y = t.y ∧
          (t.setActiveBands a).yerr = t.yerr ∧
          (t.setActiveBands a).bands = t.bands) := by
  refine ⟨fun mask time flux fluxerr bands b => ⟨rfl, rfl⟩, ?_,
    fun t a => ⟨rfl, rfl, rfl, rfl⟩⟩
  intro t hnone he
  obtain ⟨time, y, yerr, bands, ab⟩ := t
  obtain rfl : ab = none := hnone
  obtain ⟨h1, h2, h3⟩ := he
  have hall : ∀ c ∈ (TransientData.mk time y yerr bands none).bandMask, c = true := by
    intro c hc
    simp only [TransientData.bandMask, TransientData.isActive, List.mem_map] at hc
    obtain ⟨s, -, rfl⟩ := hc
    rfl
  have hlen : (TransientData.mk time y yerr bands none).bandMask.length = bands.length := by
    simp [TransientData.bandMask]
  simp only [TransientData.fittingData, TransientData.mk.injEq]
  exact ⟨maskList_all_true _ _ hall (hlen.trans h3).symm,
    maskList_all_true _ _ hall (h1.trans (hlen.trans h3).symm),
    maskList_all_true _ _ hall (h2.trans (hlen.trans h3).symm),
    maskList_all_true _ _ hall hlen.symm, trivial⟩

/-- Witness for C10 on a concrete one-point transient with no active_bands. -/
theorem active_bands_default_and_frame_witness :
    ((TransientData.activeBands ⟨[1], [2], [3], ["g"], none⟩ = none) ∧
      TransientData.equalLen ⟨[1], [2], [3], ["g"], none⟩) ∧
      TransientData.fittingData ⟨[1], [2], [3], ["g"], none⟩ =
        ⟨[1], [2], [3], ["g"], none⟩ := by
  exact ⟨⟨rfl, ⟨rfl, rfl, rfl⟩⟩,
    active_bands_default_and_frame.2.1 _ rfl ⟨rfl, rfl, rfl⟩⟩

end Redback
